import Mathlib

/-!
Verification of the buffering/selection control engine of
`src/videojs-contrib-hls.js` (videojs-contrib-hls 2.1.1).

Times on the media timeline are modelled as rationals (`ℚ`); TimeRanges
objects are modelled as lists of `(start, end)` pairs.  Wall-clock
timestamps (`Date.now()`) are integers in milliseconds (`ℤ`); the
`Infinity` used for permanent exclusion is `⊤` in `WithTop ℤ`.
-/

/-- A TimeRanges object: list of `(start(i), end(i))` pairs. -/
abbrev TimeRangeList := List (ℚ × ℚ)

/-- `overlapsCurrentEnd` from `Hls.findSoleUncommonTimeRangesEnd_`
(src/videojs-contrib-hls.js lines 52-54): a span `[start, stop]` of the
`original` ranges covers an end-point `e` when `start <= e && stop >= e`. -/
def overlapsEnd (e : ℚ) (span : ℚ × ℚ) : Bool :=
  decide (span.1 ≤ e) && decide (span.2 ≥ e)

/-- `Hls.findSoleUncommonTimeRangesEnd_` (src/videojs-contrib-hls.js lines
40-89).  Collects every end-point of `update` that no span of `original`
covers; returns it when exactly one such end-point was found, else `none`
(`null`). -/
def findSoleUncommonTimeRangesEnd (original update : TimeRangeList) : Option ℚ :=
  let edges := original
  let result := (update.filter (fun r => ! edges.any (overlapsEnd r.2))).map (fun r => r.2)
  match result with
  | [e] => some e
  | _ => none

/-- The end-points of intervals in `update` that are not covered by
(contained in or overlapping) the span of any interval in `original`,
written directly from the claim's wording (end-points are counted once per
interval of `update`). -/
def uncommonEnds (original update : TimeRangeList) : List ℚ :=
  (update.map (fun r => r.2)).filter (fun e => ! original.any (overlapsEnd e))

/-- Variant attributes parsed from the master playlist.  `RESOLUTION` is a
`(width, height)` pair. -/
structure Attributes where
  BANDWIDTH : Option ℚ
  RESOLUTION : Option (ℚ × ℚ)
deriving DecidableEq

/-- A variant playlist of the master playlist.  `id` stands for the object
identity / uri of the playlist.  `excludeUntil` is `none` when the
attribute is undefined; `Infinity` (set by `excludeIncompatibleVariants_`)
is `⊤`. -/
structure Playlist where
  id : ℕ
  attributes : Option Attributes
  excludeUntil : Option (WithTop ℤ)
deriving DecidableEq

/-- The BANDWIDTH attribute as the JS truthiness tests see it:
`variant.attributes && variant.attributes.BANDWIDTH` (a declared value of 0
is falsy and treated as absent). -/
def bandOf (v : Playlist) : Option ℚ :=
  match v.attributes with
  | none => none
  | some a =>
    match a.BANDWIDTH with
    | none => none
    | some b => if b = 0 then none else some b

/-- Sort key used by `Hls.comparePlaylistBandwidth` (lines 126-140):
the truthy BANDWIDTH, else `window.Number.MAX_VALUE` (modelled as `⊤`). -/
def bandKey (v : Playlist) : WithTop ℚ :=
  match bandOf v with
  | some b => (b : WithTop ℚ)
  | none => ⊤

/-- `Hls.comparePlaylistBandwidth(x, y) <= 0`, the ordering realised by the
bandwidth sort in `selectPlaylist` (line 829). -/
def comparePlaylistBandwidthLE (x y : Playlist) : Bool :=
  decide (bandKey x ≤ bandKey y)

/-- The RESOLUTION attribute, when `attributes` is present. -/
def resolutionOf (v : Playlist) : Option (ℚ × ℚ) :=
  match v.attributes with
  | none => none
  | some a => a.RESOLUTION

/-- Sort key used by `Hls.comparePlaylistResolution` (lines 151-179): the
truthy RESOLUTION.width, else `window.Number.MAX_VALUE` (modelled `⊤`). -/
def resWidthKey (v : Playlist) : WithTop ℚ :=
  match resolutionOf v with
  | none => ⊤
  | some r => if r.1 = 0 then ⊤ else (r.1 : WithTop ℚ)

/-- `Hls.comparePlaylistResolution(x, y) <= 0`: equal widths fall back to
the bandwidth difference when both BANDWIDTH attributes are truthy. -/
def comparePlaylistResolutionLE (x y : Playlist) : Bool :=
  if resWidthKey x = resWidthKey y && (bandOf x).isSome && (bandOf y).isSome then
    decide (bandKey x ≤ bandKey y)
  else
    decide (resWidthKey x ≤ resWidthKey y)

/-- Stable insertion into a sorted list: `x` is placed before the first
element `y` with `le x y` (so elements comparing equal keep their original
relative order, as `Array.prototype.sort` does for a consistent
comparator). -/
def insertSorted (le : α → α → Bool) (x : α) : List α → List α
  | [] => [x]
  | y :: ys => if le x y then x :: y :: ys else y :: insertSorted le x ys

/-- Stable sort by the comparator-induced order `le`. -/
def insertionSort (le : α → α → Bool) : List α → List α
  | [] => []
  | x :: xs => insertSorted le x (insertionSort le xs)

/-- The exclusion filter of `selectPlaylist` (lines 833-838): a variant is
kept when its `excludeUntil` is undefined or `now >= excludeUntil`. -/
def playlistEligible (now : ℤ) (v : Playlist) : Bool :=
  match v.excludeUntil with
  | none => true
  | some u => decide ((now : WithTop ℤ) ≥ u)

/-- `bandwidthVariance` (line 183). -/
def bandwidthVariance : ℚ := 1.2

/-- `blacklistDuration` (line 186): five minutes in milliseconds. -/
def blacklistDuration : ℤ := 5 * 60 * 1000

/-- The body of the bandwidth-filter loop of `selectPlaylist` (lines
842-862): a variant is pushed onto `bandwidthPlaylists` when its truthy
BANDWIDTH times `bandwidthVariance` is strictly below the current
bandwidth estimate. -/
def bandwidthEligible (bandwidth : ℚ) (v : Playlist) : Bool :=
  match bandOf v with
  | none => false
  | some b => decide (b * bandwidthVariance < bandwidth)

/-- RESOLUTION as tested by the guard of the resolution loop (lines
883-887): both width and height must be truthy. -/
def loopResolutionOf (v : Playlist) : Option (ℚ × ℚ) :=
  match resolutionOf v with
  | none => none
  | some r => if r.1 = 0 || r.2 = 0 then none else some r

/-- `a === b` against a possibly-NaN player dimension (`parseInt` of a CSS
value): any comparison with NaN (`none`) is false. -/
def qeq (a : ℚ) (b : Option ℚ) : Bool :=
  match b with
  | some c => decide (a = c)
  | none => false

/-- `a < b` against a possibly-NaN player dimension. -/
def qlt (a : ℚ) (b : Option ℚ) : Bool :=
  match b with
  | some c => decide (a < c)
  | none => false

/-- The resolution loop of `selectPlaylist` (lines 879-920), iterating over
the resolution-sorted `bandwidthPlaylists` from highest to lowest (the
input list here is that list reversed).  The accumulator carries
`resolutionPlusOne` together with its RESOLUTION attribute
(`resolutionPlusOneAttribute`).  Returns
`(resolutionPlusOne, resolutionBestVariant)`. -/
def resolutionLoop (width height : Option ℚ) :
    List Playlist → Option (Playlist × ℚ × ℚ) → Option Playlist × Option Playlist
  | [], rpo => (rpo.map (fun pr => pr.1), none)
  | v :: rest, rpo =>
    match loopResolutionOf v with
    | none => resolutionLoop width height rest rpo
    | some (vw, vh) =>
      if qeq vw width && qeq vh height then
        -- exact match: use it and stop
        (none, some v)
      else if qlt vw width && qlt vh height then
        -- both dimensions below the player: stop, keeping the
        -- previously saved next-largest variant
        (rpo.map (fun pr => pr.1), none)
      else if (match rpo with
               | none => true
               | some pr => decide (vw < pr.2.1) && decide (vh < pr.2.2)) then
        resolutionLoop width height rest (some (v, vw, vh))
      else
        resolutionLoop width height rest rpo

/-- `selectPlaylist` (lines 815-927).  `now` is `+new Date()`; `width` and
`height` are the player dimensions (`none` when `parseInt` yields NaN).
The descending `while (i--)` scans are realised by filtering/iterating the
reversed ascending lists. -/
def selectPlaylist (master : List Playlist) (now : ℤ) (bandwidth : ℚ)
    (width height : Option ℚ) : Option Playlist :=
  let sortedPlaylists0 := insertionSort comparePlaylistBandwidthLE master
  let sortedPlaylists := sortedPlaylists0.filter (playlistEligible now)
  let bandwidthPlaylists := (sortedPlaylists.reverse).filter (bandwidthEligible bandwidth)
  let bandwidthBestVariant := bandwidthPlaylists.head?
  let sortedRes := insertionSort comparePlaylistResolutionLE bandwidthPlaylists
  let loopRes := resolutionLoop width height (sortedRes.reverse) none
  -- fallback chain (lines 923-926):
  -- resolutionPlusOne || resolutionBestVariant || bandwidthBestVariant || sortedPlaylists[0]
  match loopRes.1 with
  | some p => some p
  | none =>
    match loopRes.2 with
    | some p => some p
    | none =>
      match bandwidthBestVariant with
      | some p => some p
      | none => sortedPlaylists.head?

/-- Wraps a predicate over an optional value: `true` on `none`. -/
def optionAll (f : α → Bool) : Option α → Bool
  | none => true
  | some x => f x

/-- The lowest-bitrate rendition of end-to-end scenario B: bitrate 500000,
no RESOLUTION attribute, nothing excluded. -/
def demo500 : Playlist := ⟨0, some ⟨some 500000, none⟩, none⟩

/-- The 2000000-bitrate rendition of end-to-end scenario B. -/
def demo2000 : Playlist := ⟨1, some ⟨some 2000000, none⟩, none⟩

/-- The master playlist of end-to-end scenario B. -/
def demoMaster : List Playlist := [demo500, demo2000]

/-- Reason string passed to `mediaSource.endOfStream` by
`blacklistCurrentPlaylist_`. -/
inductive EosReason
  | network
deriving DecidableEq

/-- Observable outcome of `blacklistCurrentPlaylist_`: the master playlist
list after any exclusion, whether `this.error` was recorded, the
`endOfStream` reason if invoked, and the playlist passed to
`playlists.media(...)` if a switch happened. -/
structure BlacklistResult where
  master : List Playlist
  errorRecorded : Bool
  endOfStream : Option EosReason
  switchedTo : Option Playlist
deriving DecidableEq

/-- The exclusion write
`currentPlaylist.excludeUntil = Date.now() + blacklistDuration` (line
1179), applied to the master list at the playlist with the given id. -/
def blacklistApply (now : ℤ) (pid : ℕ) (master : List Playlist) : List Playlist :=
  master.map (fun p =>
    if p.id = pid then
      { p with excludeUntil := some ((now + blacklistDuration : ℤ) : WithTop ℤ) }
    else p)

/-- `blacklistCurrentPlaylist_` (lines 1161-1195).  `errPlaylist` is the id
of `error.playlist` and `mediaPlaylist` the id of the currently active
`this.playlists.media()` (`none` when absent); the JS mutation of the
offending playlist object is modelled by mapping over the master list.
`Date.now()` here and `+new Date()` inside `selectPlaylist` are the same
`now`. -/
def blacklistCurrentPlaylist (now : ℤ) (bandwidth : ℚ) (width height : Option ℚ)
    (master : List Playlist) (errPlaylist mediaPlaylist : Option ℕ) : BlacklistResult :=
  match errPlaylist.orElse (fun _ => mediaPlaylist) with
  | none => ⟨master, true, some EosReason.network, none⟩
  | some pid =>
    let master1 := blacklistApply now pid master
    match selectPlaylist master1 now bandwidth width height with
    | some nextPlaylist => ⟨master1, false, none, some nextPlaylist⟩
    | none => ⟨master1, true, some EosReason.network, none⟩

/-- A decryption key: downloaded 32-bit words (`nil` until fetched) and the
retry counter (JS `undefined` modelled as 0). -/
structure Key where
  bytes : Option (List ℕ)
  retries : ℕ
deriving DecidableEq

/-- `keyFailed` (lines 196-198): `key.retries && key.retries >= 2` (a
falsy/zero counter makes the conjunction false either way). -/
def keyFailed (key : Key) : Bool :=
  decide (key.retries ≥ 2)

/-- State of the key-fetch subsystem of `HlsHandler`: the outstanding key
request id, the key of the segment being fetched, whether the segment has
a key at all (`segment.key`), the id counter for new requests, and whether
`checkBuffer_()` was re-invoked on success. -/
structure KeyFetchState where
  keyXhr_ : Option ℕ
  key : Key
  encrypted : Bool
  nextXhrId : ℕ
  checkedBuffer : Bool
deriving DecidableEq

/-- `fetchKey_` (lines 1455-1515): no-op when a key request is already
outstanding, the segment is unencrypted, the key bytes are already
present, or the key permanently failed; otherwise issues one request. -/
def fetchKey (st : KeyFetchState) : KeyFetchState :=
  if st.keyXhr_.isSome then st
  else if st.encrypted = false then st
  else if st.key.bytes = none ∧ keyFailed st.key = false then
    { st with keyXhr_ := some st.nextXhrId, nextXhrId := st.nextXhrId + 1 }
  else st

/-- A key XHR completion: error flag, deliberate-abort flag, and the
response body (list of byte values, `none` when absent). -/
structure KeyResponse where
  error : Bool
  aborted : Bool
  response : Option (List ℕ)
deriving DecidableEq

/-- `DataView.getUint32(off)`: big-endian read of four bytes. -/
def getUint32 (bs : List ℕ) (off : ℕ) : ℕ :=
  bs.getD off 0 * 2 ^ 24 + bs.getD (off + 1) 0 * 2 ^ 16 + bs.getD (off + 2) 0 * 2 ^ 8 +
    bs.getD (off + 3) 0

/-- The four 32-bit words stored for a 16-byte key body (lines 1486-1492). -/
def keyWords (bs : List ℕ) : List ℕ :=
  [getUint32 bs 0, getUint32 bs 4, getUint32 bs 8, getUint32 bs 12]

/-- `receiveKey` (lines 1470-1497): the key XHR completion handler.  On
error, missing body, or a body whose byte length is not 16, it increments
the retry counter and re-enters `fetchKey_` unless the request was
deliberately aborted; on success it stores the four words of the 16-byte
body and re-runs `checkBuffer_`. -/
def receiveKey (st : KeyFetchState) (resp : KeyResponse) : KeyFetchState :=
  let st1 := { st with keyXhr_ := none }
  if resp.error = true ∨ resp.response = none ∨ (resp.response.getD []).length ≠ 16 then
    let st2 := { st1 with key := { st1.key with retries := st1.key.retries + 1 } }
    if resp.aborted = false then fetchKey st2 else st2
  else
    { st1 with
      key := { st1.key with bytes := some (keyWords (resp.response.getD [])) },
      checkedBuffer := true }

/-- `loadingState_`: none / meta / segments (lines 375-384). -/
inductive LoadingState
  | noLoad
  | meta
  | segments
deriving DecidableEq

/-- The playlist loader states `fillBuffer` tests: HAVE_NOTHING,
SWITCHING_MEDIA, and everything else. -/
inductive LoaderState
  | haveNothing
  | switchingMedia
  | ready
deriving DecidableEq

/-- A media segment as used by `fillBuffer`/`loadSegment`.  `uri` is the
resolved url (`playlistUriToUrl`), `byterange` the identity of the
byterange object (the JS repeat guard compares it with `===`). -/
structure Seg where
  uri : ℕ
  byterange : Option ℕ
  duration : ℚ
  key : Option Key
  discontinuity : Bool
deriving DecidableEq

/-- The active media playlist as used by `fillBuffer`. -/
structure Media where
  segments : Option (List Seg)
  mediaSequence : ℕ
  discontinuityStarts : List ℕ
deriving DecidableEq

/-- The segment-info record built by `fillBuffer` (lines 1047-1070): the
pending-fetch record.  `buffered` is the buffered-extent snapshot taken by
`drainBuffer` just before appending (`none` until then). -/
structure SegmentInfo where
  uri : ℕ
  mediaIndex : ℕ
  mediaSequence : ℕ
  currentBufferedEnd : ℚ
  bytes : Option (List ℕ)
  encryptedBytes : Option (List ℕ)
  buffered : Option TimeRangeList
  timestampOffset : Option ℚ
deriving DecidableEq

/-- The collaborators `fillBuffer` and `setCurrentTime` read: the tech
(current time, buffered ranges, seeking flag, source presence), the
playlist loader's index/duration helpers (external to this file's source),
and the source buffer's state. -/
structure Env where
  currentTime : ℚ
  buffered : TimeRangeList
  currentBuffered : TimeRangeList
  seeking : Bool
  hasCurrentSrc : Bool
  getMediaIndexForTime : ℚ → ℕ
  playlistDuration : ℕ → ℚ
  expired : ℚ
  seekable : TimeRangeList
  sourceBufferPresent : Bool
  sourceBufferUpdating : Bool

/-- The mutable `HlsHandler` state touched by the buffer-filling and
seeking paths.  `abortedSegmentXhrs`/`abortedKeyXhrs` record `abort()`
calls; `removedRange` records the `sourceBuffer.remove` call of
`loadSegment`. -/
structure HlsState where
  loadingState : LoadingState
  hasPlaylists : Bool
  loaderState : LoaderState
  media : Option Media
  segmentXhr_ : Option ℕ
  pendingSegment_ : Option SegmentInfo
  keyXhr_ : Option ℕ
  lastSegmentLoaded_ : Option Seg
  nextXhrId : ℕ
  removedRange : Option (ℚ × ℚ)
  abortedSegmentXhrs : List ℕ
  abortedKeyXhrs : List ℕ
  bandwidth : ℚ
  bytesReceived : ℕ
  segmentXhrTime : Option ℚ
  currentRequestInfo : Option SegmentInfo
deriving DecidableEq

/-- `Hls.GOAL_BUFFER_LENGTH` (line 27). -/
def GOAL_BUFFER_LENGTH : ℚ := 30

/-- `this.playlists.media().segments` as tested by the guards. -/
def getSegments (st : HlsState) : Option (List Seg) :=
  st.media.bind Media.segments

/-- `fetchKey_` as invoked from `loadSegment` (line 1224), acting on the
`HlsHandler` request state: no-op when a key request is outstanding or the
segment is unencrypted, and issues a request only when the key has no
bytes and has not permanently failed (line 1507). -/
def fetchKeyOnLoad (st : HlsState) (key : Option Key) : HlsState :=
  if st.keyXhr_.isSome then st
  else
    match key with
    | none => st
    | some k =>
      if k.bytes = none ∧ keyFailed k = false then
        { st with keyXhr_ := some st.nextXhrId, nextXhrId := st.nextXhrId + 1 }
      else st

/-- `loadSegment` (lines 1197-1286): evicts old buffered data, triggers the
key fetch for encrypted segments, and issues the segment request.
`segmentInfo` is kept by the completion callback's closure, modelled by
`currentRequestInfo`. -/
def loadSegment (env : Env) (st : HlsState) (segmentInfo : SegmentInfo)
    (segment : Seg) : HlsState :=
  let st1 :=
    if env.sourceBufferPresent = true ∧ env.sourceBufferUpdating = false then
      let removeToTime : ℚ :=
        match env.seekable with
        | r :: _ => if 0 < r.1 ∧ r.1 < env.currentTime then r.1 else env.currentTime - 60
        | [] => env.currentTime - 60
      if 0 < removeToTime then { st with removedRange := some (0, removeToTime) } else st
    else st
  let st2 :=
    match segment.key with
    | some _ => fetchKeyOnLoad st1 segment.key
    | none => st1
  { st2 with
      segmentXhr_ := some st2.nextXhrId
      nextXhrId := st2.nextXhrId + 1
      currentRequestInfo := some segmentInfo }

/-- The body of `fillBuffer` (lines 972-1096) with explicit fuel for the
`return this.fillBuffer(mediaIndex + 1)` re-entry of the repeat-segment
guard (line 1043); the recursion depth is bounded by the segment count, so
`fillBuffer` below supplies `segments.length + 1` fuel and the fuel-0 case
is unreachable. -/
def fillBufferGo (env : Env) (st : HlsState) : Option ℕ → ℕ → HlsState
  | _, 0 => st
  | mediaIndexArg, fuel + 1 =>
    -- guards (lines 984-1014)
    if st.loadingState ≠ LoadingState.segments then st
    else if env.hasCurrentSrc = false ∨ st.hasPlaylists = false then st
    else if st.segmentXhr_.isSome then st
    else if st.pendingSegment_.isSome then st
    else if st.loaderState = LoaderState.haveNothing ∨ st.media = none ∨
        getSegments st = none then st
    else if st.loaderState = LoaderState.switchingMedia then st
    else
      match st.media with
      | none => st
      | some media =>
        match media.segments with
        | none => st
        | some segments =>
          -- mediaIndex resolution (lines 1016-1030)
          let resolved : Option (ℕ × ℚ) :=
            match mediaIndexArg with
            | some i => some (i, 0)
            | none =>
              match env.currentBuffered with
              | r :: _ =>
                if max 0 (r.2 - env.currentTime) ≥ GOAL_BUFFER_LENGTH then none
                else some (env.getMediaIndexForTime r.2, r.2)
              | [] => some (env.getMediaIndexForTime env.currentTime, 0)
          match resolved with
          | none => st
          | some (mediaIndex, currentBufferedEnd) =>
            match segments[mediaIndex]? with
            | none => st
            | some segment =>
              -- repeat-segment guard (lines 1040-1044)
              let lastSegmentRepeat : Bool :=
                match st.lastSegmentLoaded_ with
                | some lastSeg =>
                  decide (lastSeg.uri = segment.uri) &&
                    decide (lastSeg.byterange = segment.byterange)
                | none => false
              if lastSegmentRepeat then
                fillBufferGo env st (some (mediaIndex + 1)) fuel
              else
                -- timestampOffset policy (lines 1072-1093); for
                -- mediaIndex 0 the JS `segmentTimestampOffset` variable
                -- stays undefined, modelled as `none`
                let segmentTimestampOffset : Option ℚ :=
                  if 0 < mediaIndex then
                    some (env.playlistDuration (media.mediaSequence + mediaIndex) + env.expired)
                  else none
                let hasBufferedContent := env.buffered ≠ []
                let timestampOffset : Option ℚ :=
                  if env.seeking = true ∧ env.currentBuffered = [] then
                    if media.discontinuityStarts ≠ [] then segmentTimestampOffset else none
                  else if segment.discontinuity = true ∧ env.currentBuffered ≠ [] then
                    match env.currentBuffered with
                    | r :: _ => some r.2
                    | [] => none
                  else if ¬ hasBufferedContent ∧ env.currentTime > 0.05 then
                    segmentTimestampOffset
                  else none
                let segmentInfo : SegmentInfo :=
                  { uri := segment.uri, mediaIndex := mediaIndex,
                    mediaSequence := media.mediaSequence,
                    currentBufferedEnd := currentBufferedEnd,
                    bytes := none, encryptedBytes := none,
                    buffered := none, timestampOffset := timestampOffset }
                loadSegment env st segmentInfo segment

/-- `fillBuffer(mediaIndex)` (lines 972-1096). -/
def fillBuffer (env : Env) (st : HlsState) (mediaIndexArg : Option ℕ) : HlsState :=
  fillBufferGo env st mediaIndexArg ((getSegments st).getD []).length.succ

/-- `setCurrentTime` (lines 646-684).  Returns the new state and the JS
return value (`none` models the undefined return of the cancel path). -/
def setCurrentTime (env : Env) (st : HlsState) (currentTime : ℚ) : HlsState × Option ℚ :=
  let pendingMidAppend : Bool :=
    match st.pendingSegment_ with
    | some p => p.buffered.isSome
    | none => false
  if ¬ (st.hasPlaylists = true ∧ st.media.isSome = true) then (st, some 0)
  else if getSegments st = none then (st, some 0)
  else if env.currentBuffered ≠ [] then (st, some currentTime)
  else if pendingMidAppend = true then (st, some currentTime)
  else
    let st1 := { st with lastSegmentLoaded_ := none }
    -- cancelSegmentXhr (lines 783-793): abort the request and clear the
    -- pending segment
    let st2 :=
      match st1.segmentXhr_ with
      | some reqId =>
        { st1 with
            segmentXhr_ := none
            pendingSegment_ := none
            abortedSegmentXhrs := st1.abortedSegmentXhrs ++ [reqId] }
      | none => { st1 with pendingSegment_ := none }
    -- keyXhr_.aborted = true; cancelKeyXhr (lines 677-680, 775-781)
    let st3 :=
      match st2.keyXhr_ with
      | some keyReqId =>
        { st2 with
            keyXhr_ := none
            abortedKeyXhrs := st2.abortedKeyXhrs ++ [keyReqId] }
      | none => st2
    (fillBuffer env st3 (some (env.getMediaIndexForTime currentTime)), none)

/-- The stale-request guard at the top of the segment xhr completion
callback (lines 1240-1242): the callback acts only when `request` is still
the current `segmentXhr_`. -/
def segmentResponseIsCurrent (st : HlsState) (request : ℕ) : Bool :=
  match st.segmentXhr_ with
  | none => false
  | some current => decide (current = request)

/-- Collaborator calls made by the segment xhr completion callback. -/
inductive HandlerAction
  | reselectAfterTimeout
  | blacklistOnError
  | progressAndDrain
deriving DecidableEq

/-- A segment XHR completion. -/
structure SegmentResponse where
  request : ℕ
  timedout : Bool
  aborted : Bool
  error : Bool
  response : Option (List ℕ)
  roundTripTime : ℚ
  bandwidth : ℚ
  bytesReceived : ℕ
deriving DecidableEq

/-- The segment xhr completion callback of `loadSegment` (lines
1237-1284): stale-request guard, timeout/error/abort handling, then
bandwidth bookkeeping (`setBandwidth`), byte storage and promotion of the
segment-info record to `pendingSegment_`. -/
def onSegmentResponse (st : HlsState) (segmentInfo : SegmentInfo) (segment : Seg)
    (resp : SegmentResponse) : HlsState × List HandlerAction :=
  if segmentResponseIsCurrent st resp.request = false then (st, [])
  else
    let st1 := { st with segmentXhr_ := none }
    if resp.timedout = true then
      ({ st1 with bandwidth := 1 }, [HandlerAction.reselectAfterTimeout])
    else if resp.aborted = false ∧ resp.error = true then
      (st1, [HandlerAction.blacklistOnError])
    else
      match resp.response with
      | none => (st1, [])
      | some respBytes =>
        let st2 :=
          { st1 with
              lastSegmentLoaded_ := some segment
              segmentXhrTime := some resp.roundTripTime
              bandwidth := resp.bandwidth
              bytesReceived := st1.bytesReceived + resp.bytesReceived }
        let si2 :=
          if segment.key.isSome then { segmentInfo with encryptedBytes := some respBytes }
          else { segmentInfo with bytes := some respBytes }
        ({ st2 with pendingSegment_ := some si2 }, [HandlerAction.progressAndDrain])

/-- A segment as touched by `updateSegmentMetadata`; `endTime` is the
source's `end` field (a Lean keyword). -/
structure MetaSegment where
  duration : Option ℚ
  endTime : Option ℚ
deriving DecidableEq

/-- A media playlist as touched by `updateSegmentMetadata`. -/
structure MetaPlaylist where
  segments : List MetaSegment
deriving DecidableEq

/-- `updateSegmentMetadata` (lines 230-250).  JS truthiness: a
`segmentEnd` of `null` or 0 fails `if (segmentEnd && segment)`; a previous
segment `end` of 0 fails `else if (previousSegment.end)`;
`segments[segmentIndex - 1]` is `undefined` when `segmentIndex` is 0. -/
def updateSegmentMetadata (playlist : Option MetaPlaylist) (segmentIndex : ℕ)
    (segmentEnd : Option ℚ) : Option MetaPlaylist :=
  match playlist with
  | none => none
  | some pl =>
    let segment := pl.segments[segmentIndex]?
    let previousSegment :=
      if segmentIndex = 0 then none else pl.segments[segmentIndex - 1]?
    match segmentEnd, segment with
    | some e, some seg =>
      if e = 0 then some pl
      else
        let seg1 := { seg with endTime := some e }
        let seg2 :=
          match previousSegment with
          | none => { seg1 with duration := some e }
          | some prev =>
            match prev.endTime with
            | some pe => if pe = 0 then seg1 else { seg1 with duration := some (e - pe) }
            | none => seg1
        some { segments := pl.segments.set segmentIndex seg2 }
    | _, _ => some pl

/-- Environment for the concrete seek/fill scenarios: the seek target 5 is
inside the buffered range [0,10]. -/
def seekDemoEnv : Env :=
  { currentTime := 5, buffered := [(0, 10)], currentBuffered := [(0, 10)], seeking := true,
    hasCurrentSrc := true, getMediaIndexForTime := fun _ => 0,
    playlistDuration := fun _ => 0, expired := 0, seekable := [],
    sourceBufferPresent := false, sourceBufferUpdating := false }

/-- The same environment with nothing buffered at the seek target. -/
def seekDemoEnvEmpty : Env :=
  { seekDemoEnv with buffered := [], currentBuffered := [] }

/-- A handler state with a segment request (id 7) and a key request (id 9)
outstanding. -/
def seekDemoState : HlsState :=
  { loadingState := LoadingState.segments, hasPlaylists := true,
    loaderState := LoaderState.ready, media := some ⟨some [], 0, []⟩,
    segmentXhr_ := some 7, pendingSegment_ := none, keyXhr_ := some 9,
    lastSegmentLoaded_ := none, nextXhrId := 10, removedRange := none,
    abortedSegmentXhrs := [], abortedKeyXhrs := [], bandwidth := 1,
    bytesReceived := 0, segmentXhrTime := none, currentRequestInfo := none }

/-- C1: `findSoleUncommonTimeRangesEnd_(before, after)` returns an end time
`e` iff `e` is the only end-point of an interval in `after` not covered by
the span of any interval in `before` (so with zero or several such
end-points it returns `null`); in particular for `before = [[0,10]]` and
`after = [[0,10],[10,25]]` it returns 25. -/
theorem C1_findSoleUncommonTimeRangesEnd_sole_iff :
    (∀ original update : TimeRangeList, ∀ e : ℚ,
      findSoleUncommonTimeRangesEnd original update = some e ↔
        uncommonEnds original update = [e]) ∧
    findSoleUncommonTimeRangesEnd [((0 : ℚ), 10)] [(0, 10), (10, 25)] = some 25 := by
  constructor
  · intro original update e
    have hcomm : uncommonEnds original update =
        (update.filter (fun r => ! original.any (overlapsEnd r.2))).map (fun r => r.2) := by
      unfold uncommonEnds
      rw [List.filter_map]
      rfl
    rw [hcomm]
    simp only [findSoleUncommonTimeRangesEnd]
    generalize (update.filter (fun r => ! original.any (overlapsEnd r.2))).map (fun r => r.2)
      = result
    rcases result with _ | ⟨a, _ | ⟨b, t⟩⟩ <;> simp
  · decide

/-- C2 counterexample: the claim asserts that for `before = [[0,10]]`,
`after = [[0,12]]` the function returns `null`; the code returns 12 (the
end-point 12 of the grown span is not covered by `[0,10]`). -/
theorem C2_counterexample_grow_returns_twelve :
    findSoleUncommonTimeRangesEnd [((0 : ℚ), 10)] [(0, 12)] ≠ none := by
  decide

/-- C2 (amended): for `before = [[0,10]]` and `after = [[0,12]]`,
`findSoleUncommonTimeRangesEnd_` returns 12 — an end-point produced by the
growing of an existing span does qualify as a new end edge; only an
end-point still covered by an original span (as with shrinking,
`after = [[0,8]]`) is rejected. -/
theorem C2_amended_grow_qualifies_shrink_does_not :
    findSoleUncommonTimeRangesEnd [((0 : ℚ), 10)] [(0, 12)] = some 12 ∧
    findSoleUncommonTimeRangesEnd [((0 : ℚ), 10)] [(0, 8)] = none := by
  constructor <;> decide

theorem mem_insertSorted {le : α → α → Bool} {x a : α} {l : List α} :
    a ∈ insertSorted le x l ↔ a = x ∨ a ∈ l := by
  induction l with
  | nil => simp [insertSorted]
  | cons y ys ih =>
    unfold insertSorted
    cases h : le x y with
    | true => simp
    | false =>
      simp only [Bool.false_eq_true, if_false, List.mem_cons, ih]
      tauto

theorem mem_insertionSort {le : α → α → Bool} {a : α} {l : List α} :
    a ∈ insertionSort le l ↔ a ∈ l := by
  induction l with
  | nil => simp [insertionSort]
  | cons x xs ih => simp [insertionSort, mem_insertSorted, ih]

theorem mem_of_head?_eq {a : α} {l : List α} (h : l.head? = some a) : a ∈ l := by
  cases l with
  | nil => simp at h
  | cons x xs =>
    simp only [List.head?_cons, Option.some.injEq] at h
    simp [h]

theorem resolutionLoop_fst_mem {width height : Option ℚ} :
    ∀ (l : List Playlist) (rpo : Option (Playlist × ℚ × ℚ)) (p : Playlist),
      (resolutionLoop width height l rpo).1 = some p →
      p ∈ l ∨ (∃ pr, rpo = some pr ∧ pr.1 = p) := by
  intro l
  induction l with
  | nil =>
    intro rpo p h
    right
    cases rpo with
    | none => simp [resolutionLoop] at h
    | some pr =>
      refine ⟨pr, rfl, ?_⟩
      simpa [resolutionLoop] using h
  | cons v rest ih =>
    intro rpo p h
    unfold resolutionLoop at h
    cases hres : loopResolutionOf v with
    | none =>
      rw [hres] at h
      rcases ih rpo p h with hm | hr
      · exact Or.inl (List.mem_cons_of_mem _ hm)
      · exact Or.inr hr
    | some r =>
      obtain ⟨vw, vh⟩ := r
      rw [hres] at h
      dsimp only at h
      by_cases h1 : (qeq vw width && qeq vh height) = true
      · rw [if_pos h1] at h
        simp at h
      · rw [if_neg h1] at h
        by_cases h2 : (qlt vw width && qlt vh height) = true
        · rw [if_pos h2] at h
          cases rpo with
          | none => simp at h
          | some pr =>
            refine Or.inr ⟨pr, rfl, ?_⟩
            simpa using h
        · rw [if_neg h2] at h
          split at h
          · rcases ih _ p h with hm | ⟨pr, hpr, hp⟩
            · exact Or.inl (List.mem_cons_of_mem _ hm)
            · obtain rfl : (v, vw, vh) = pr := by simpa using hpr
              exact Or.inl (by simp [← hp])
          · rcases ih rpo p h with hm | hr
            · exact Or.inl (List.mem_cons_of_mem _ hm)
            · exact Or.inr hr

theorem resolutionLoop_snd_mem {width height : Option ℚ} :
    ∀ (l : List Playlist) (rpo : Option (Playlist × ℚ × ℚ)) (p : Playlist),
      (resolutionLoop width height l rpo).2 = some p → p ∈ l := by
  intro l
  induction l with
  | nil =>
    intro rpo p h
    cases rpo <;> simp [resolutionLoop] at h
  | cons v rest ih =>
    intro rpo p h
    unfold resolutionLoop at h
    cases hres : loopResolutionOf v with
    | none =>
      rw [hres] at h
      exact List.mem_cons_of_mem _ (ih rpo p h)
    | some r =>
      obtain ⟨vw, vh⟩ := r
      rw [hres] at h
      dsimp only at h
      by_cases h1 : (qeq vw width && qeq vh height) = true
      · rw [if_pos h1] at h
        simp only [Option.some.injEq] at h
        simp [← h]
      · rw [if_neg h1] at h
        by_cases h2 : (qlt vw width && qlt vh height) = true
        · rw [if_pos h2] at h
          simp at h
        · rw [if_neg h2] at h
          split at h
          · exact List.mem_cons_of_mem _ (ih _ p h)
          · exact List.mem_cons_of_mem _ (ih rpo p h)

theorem selectPlaylist_mem_filtered {master : List Playlist} {now : ℤ} {bandwidth : ℚ}
    {width height : Option ℚ} {p : Playlist}
    (h : selectPlaylist master now bandwidth width height = some p) :
    p ∈ (insertionSort comparePlaylistBandwidthLE master).filter (playlistEligible now) := by
  unfold selectPlaylist at h
  dsimp only at h
  set S := (insertionSort comparePlaylistBandwidthLE master).filter (playlistEligible now)
    with hS
  set B := (S.reverse).filter (bandwidthEligible bandwidth) with hB
  set R := insertionSort comparePlaylistResolutionLE B with hR
  have hBS : ∀ q : Playlist, q ∈ B → q ∈ S := by
    intro q hq
    rw [hB] at hq
    exact List.mem_reverse.mp (List.mem_filter.mp hq).1
  have hRB : ∀ q : Playlist, q ∈ R.reverse → q ∈ B := by
    intro q hq
    rw [hR] at hq
    exact mem_insertionSort.mp (List.mem_reverse.mp hq)
  split at h
  · rename_i q hq
    obtain rfl : q = p := by simpa using h
    rcases resolutionLoop_fst_mem _ _ _ hq with hm | ⟨pr, hpr, _⟩
    · exact hBS _ (hRB _ hm)
    · simp at hpr
  · split at h
    · rename_i q hq
      obtain rfl : q = p := by simpa using h
      exact hBS _ (hRB _ (resolutionLoop_snd_mem _ _ _ hq))
    · split at h
      · rename_i q hq
        obtain rfl : q = p := by simpa using h
        exact hBS _ (mem_of_head?_eq hq)
      · exact mem_of_head?_eq h

/-- C3: `selectPlaylist` never returns a playlist whose `excludeUntil` is
strictly in the future — every returned playlist passes the exclusion
filter (`excludeUntil` undefined or `now >= excludeUntil`); and a playlist
excluded at time `T` (its `excludeUntil` set to `T + blacklistDuration` by
`blacklistCurrentPlaylist_`) passes that filter exactly when `now` has
reached `T` plus the 5-minute penalty window. -/
theorem C3_selectPlaylist_never_future_excluded :
    (∀ (master : List Playlist) (now : ℤ) (bandwidth : ℚ) (width height : Option ℚ),
      optionAll (playlistEligible now) (selectPlaylist master now bandwidth width height)
        = true) ∧
    (∀ (T now : ℤ) (v : Playlist),
      playlistEligible now
          { v with excludeUntil := some ((T + blacklistDuration : ℤ) : WithTop ℤ) } = true ↔
        now ≥ T + blacklistDuration) := by
  constructor
  · intro master now bandwidth width height
    cases hsel : selectPlaylist master now bandwidth width height with
    | none => rfl
    | some p =>
      have hp := selectPlaylist_mem_filtered hsel
      simpa [optionAll] using (List.mem_filter.mp hp).2
  · intro T now v
    simp only [playlistEligible, ge_iff_le, decide_eq_true_eq]
    exact ⟨fun hh => by exact_mod_cast hh, fun hh => by exact_mod_cast hh⟩

theorem comparePlaylistBandwidthLE_demo :
    comparePlaylistBandwidthLE demo500 demo2000 = true := by
  norm_num [comparePlaylistBandwidthLE, bandKey, bandOf, demo500, demo2000]
  exact_mod_cast (by norm_num : (500000 : ℚ) ≤ 2000000)

theorem bandwidthEligible_demo500 : bandwidthEligible 1000000 demo500 = true := by
  norm_num [bandwidthEligible, bandOf, demo500, bandwidthVariance]

theorem bandwidthEligible_demo2000 : bandwidthEligible 1000000 demo2000 = false := by
  norm_num [bandwidthEligible, bandOf, demo2000, bandwidthVariance]

theorem sortedDemo :
    insertionSort comparePlaylistBandwidthLE demoMaster = [demo500, demo2000] := by
  simp [insertionSort, insertSorted, demoMaster, comparePlaylistBandwidthLE_demo]

theorem pairwiseDemo : demoMaster.Pairwise (fun x y => bandKey x ≤ bandKey y) := by
  simp only [demoMaster]
  refine List.Pairwise.cons ?_ (List.pairwise_singleton _ _)
  intro y hy
  obtain rfl := List.mem_singleton.mp hy
  norm_num [bandKey, bandOf, demo500, demo2000]
  exact_mod_cast (by norm_num : (500000 : ℚ) ≤ 2000000)

theorem bandwidthHead_demo :
    ((demoMaster.reverse).filter (bandwidthEligible 1000000)).head? = some demo500 := by
  simp [demoMaster, bandwidthEligible_demo500, bandwidthEligible_demo2000]

theorem filteredSorted_demo :
    (insertionSort comparePlaylistBandwidthLE demoMaster).filter (playlistEligible 0)
      = [demo500, demo2000] := by
  rw [sortedDemo]
  simp [playlistEligible, demo500, demo2000]

theorem loopResolutionOf_demo500 : loopResolutionOf demo500 = none := rfl

theorem selectPlaylist_demo :
    selectPlaylist demoMaster 0 1000000 none none = some demo500 := by
  unfold selectPlaylist
  dsimp only
  simp only [filteredSorted_demo]
  simp [bandwidthEligible_demo500, bandwidthEligible_demo2000, insertionSort,
    insertSorted, resolutionLoop, loopResolutionOf_demo500]

/-- C4: a playlist with a truthy BANDWIDTH attribute enters
`bandwidthPlaylists` iff its declared bitrate times the 1.2 variance
margin is strictly below the bandwidth estimate; on a bitrate-sorted list
the bandwidth candidate (`bandwidthBestVariant`, the head of the
descending scan) is a highest-bitrate eligible playlist; and with
renditions of bitrates 500000 and 2000000 and an estimate of 1000000,
`selectPlaylist` returns the 500000 rendition. -/
theorem C4_bandwidth_eligibility_and_candidate :
    (∀ (bandwidth : ℚ) (sorted : List Playlist) (v : Playlist),
      v ∈ (sorted.reverse).filter (bandwidthEligible bandwidth) ↔
        v ∈ sorted ∧ ∃ b, bandOf v = some b ∧ b * bandwidthVariance < bandwidth) ∧
    (∀ (bandwidth : ℚ) (sorted : List Playlist),
      sorted.Pairwise (fun x y => bandKey x ≤ bandKey y) →
      ∀ best : Playlist,
        ((sorted.reverse).filter (bandwidthEligible bandwidth)).head? = some best →
      ∀ v ∈ sorted, bandwidthEligible bandwidth v = true → bandKey v ≤ bandKey best) ∧
    selectPlaylist demoMaster 0 1000000 none none = some demo500 := by
  refine ⟨?_, ?_, ?_⟩
  · intro bandwidth sorted v
    rw [List.mem_filter, List.mem_reverse]
    constructor
    · rintro ⟨hv, he⟩
      refine ⟨hv, ?_⟩
      unfold bandwidthEligible at he
      cases hb : bandOf v with
      | none => rw [hb] at he; simp at he
      | some b =>
        rw [hb] at he
        exact ⟨b, rfl, by simpa using he⟩
    · rintro ⟨hv, b, hb, hlt⟩
      refine ⟨hv, ?_⟩
      unfold bandwidthEligible
      rw [hb]
      simpa using hlt
  · intro bandwidth sorted hpair best hhead v hv hel
    have hrev : (sorted.reverse).Pairwise (fun x y => bandKey y ≤ bandKey x) := by
      rw [List.pairwise_reverse]
      exact hpair
    have hfil : ((sorted.reverse).filter (bandwidthEligible bandwidth)).Pairwise
        (fun x y => bandKey y ≤ bandKey x) :=
      List.Pairwise.sublist (List.filter_sublist _) hrev
    cases hf : (sorted.reverse).filter (bandwidthEligible bandwidth) with
    | nil => rw [hf] at hhead; simp at hhead
    | cons a t =>
      rw [hf] at hhead
      simp only [List.head?_cons, Option.some.injEq] at hhead
      rw [hf] at hfil
      have hmem : v ∈ a :: t := by
        rw [← hf]
        exact List.mem_filter.mpr ⟨List.mem_reverse.mpr hv, hel⟩
      rcases List.mem_cons.mp hmem with rfl | hvt
      · rw [← hhead]
      · rw [← hhead]
        exact (List.pairwise_cons.mp hfil).1 v hvt
  · exact selectPlaylist_demo

/-- Witness for C4: instantiates the bandwidth-candidate maximality part on
scenario B's concrete master playlist. -/
theorem C4_witness : bandKey demo500 ≤ bandKey demo500 :=
  C4_bandwidth_eligibility_and_candidate.2.1 1000000 demoMaster pairwiseDemo demo500
    bandwidthHead_demo demo500 (by decide) bandwidthEligible_demo500

/-- C10: an appended-segment end time of exactly 0 is handled like having
no timeline information at all: for every playlist and every segment
index, `updateSegmentMetadata` leaves every segment's `end` and `duration`
field unchanged. -/
theorem C10_updateSegmentMetadata_zero_end_noop :
    ∀ (playlist : Option MetaPlaylist) (segmentIndex : ℕ),
      updateSegmentMetadata playlist segmentIndex (some 0) = playlist := by
  intro playlist segmentIndex
  cases playlist with
  | none => rfl
  | some pl =>
    unfold updateSegmentMetadata
    dsimp only
    cases h : pl.segments[segmentIndex]? with
    | none => rfl
    | some seg => simp

/-- C9 counterexample: the claim asserts that any non-null end time is
written to the segment and that a known previous end yields
`duration = end − previousEnd`; both fail on the truthiness tests with the
value 0.  At end time 0 on a valid index the segment's `end` stays `none`
(not `some 0`); with a previous end of 0 and end time 5 the duration stays
`none` (not `some 5`). -/
theorem C9_counterexample_zero_truthiness :
    updateSegmentMetadata (some ⟨[⟨none, none⟩]⟩) 0 (some 0) = some ⟨[⟨none, none⟩]⟩ ∧
    (⟨none, none⟩ : MetaSegment).endTime ≠ some 0 ∧
    updateSegmentMetadata (some ⟨[⟨some 10, some 0⟩, ⟨none, none⟩]⟩) 1 (some 5)
      = some ⟨[⟨some 10, some 0⟩, ⟨none, some 5⟩]⟩ ∧
    (⟨none, some 5⟩ : MetaSegment).duration ≠ some 5 := by
  refine ⟨by decide, by decide, by decide, by decide⟩

/-- C9 (amended): with a null end time (ambiguous append) nothing changes;
with a non-null, non-zero end time and a valid segment index the
segment's `end` is set to that value, and its duration becomes the end
value for the first segment, otherwise `end − previousSegment.end`
exactly when the previous segment's end is known and non-zero (a zero end
fails the JS truthiness test and leaves the duration untouched). -/
theorem C9_amended_updateSegmentMetadata :
    (∀ (playlist : Option MetaPlaylist) (segmentIndex : ℕ),
      updateSegmentMetadata playlist segmentIndex none = playlist) ∧
    (∀ (pl : MetaPlaylist) (segmentIndex : ℕ) (e : ℚ) (seg : MetaSegment),
      e ≠ 0 → pl.segments[segmentIndex]? = some seg →
      updateSegmentMetadata (some pl) segmentIndex (some e) =
        some ⟨pl.segments.set segmentIndex
          { seg with
              endTime := some e
              duration :=
                if segmentIndex = 0 then some e
                else
                  match (pl.segments[segmentIndex - 1]?).bind MetaSegment.endTime with
                  | some pe => if pe = 0 then seg.duration else some (e - pe)
                  | none => seg.duration }⟩) := by
  constructor
  · intro playlist segmentIndex
    cases playlist with
    | none => rfl
    | some pl => rfl
  · intro pl segmentIndex e seg he hseg
    unfold updateSegmentMetadata
    dsimp only
    rw [hseg]
    dsimp only
    rw [if_neg he]
    by_cases h0 : segmentIndex = 0
    · subst h0
      simp
    · rw [if_neg h0]
      have hlt : segmentIndex < pl.segments.length := by
        have := List.getElem?_eq_some.mp hseg
        exact this.1
      have hprevlt : segmentIndex - 1 < pl.segments.length :=
        lt_of_le_of_lt (Nat.sub_le _ _) hlt
      have hprev : pl.segments[segmentIndex - 1]? = some pl.segments[segmentIndex - 1] :=
        List.getElem?_eq_getElem hprevlt
      rw [hprev]
      cases hpe : pl.segments[segmentIndex - 1].endTime with
      | none => simp [hpe, h0]
      | some pe =>
        by_cases hpe0 : pe = 0
        · subst hpe0
          simp [hpe, h0]
        · simp [hpe, hpe0, h0]

/-- Witness for C9: a first segment updated with end time 7 gets
`end = 7` and `duration = 7`. -/
theorem C9_witness :
    updateSegmentMetadata (some ⟨[⟨none, none⟩]⟩) 0 (some 7) =
      some ⟨[⟨some 7, some 7⟩]⟩ := by
  have h := C9_amended_updateSegmentMetadata.2 ⟨[⟨none, none⟩]⟩ 0 7 ⟨none, none⟩
    (by norm_num) rfl
  simpa using h

theorem fetchKey_retries (st : KeyFetchState) : (fetchKey st).key.retries = st.key.retries := by
  unfold fetchKey
  split_ifs <;> rfl

theorem fetchKey_noop_of_failed (st : KeyFetchState) (h : keyFailed st.key = true) :
    fetchKey st = st := by
  unfold fetchKey
  split_ifs with h1 h2 h3
  · rfl
  · rfl
  · rw [h3.2] at h
    exact absurd h (by simp)
  · rfl

theorem fetchKey_keyXhr_of_none (st : KeyFetchState) (h : st.keyXhr_ = none) :
    (fetchKey st).keyXhr_.isSome = true ↔
      st.encrypted = true ∧ st.key.bytes = none ∧ keyFailed st.key = false := by
  unfold fetchKey
  rw [h]
  simp only [Option.isSome_none, Bool.false_eq_true, if_false]
  split_ifs with h2 h3
  · simp [h, h2]
  · have henc : st.encrypted = true := by
      cases hh : st.encrypted
      · exact absurd hh h2
      · rfl
    simp [henc, h3.1, h3.2]
  · simp only [h, Option.isSome_none, Bool.false_eq_true, false_iff]
    rintro ⟨_, hbytes, hfail⟩
    exact h3 ⟨hbytes, hfail⟩

/-- C7: key fetching is bounded at two attempts.  A key response error,
missing body, or body of byte length other than 16 increments the retry
counter and re-issues the fetch exactly when the request was not
deliberately aborted, the key is still without bytes and the incremented
counter is below 2; a permanently failed key (`retries >= 2`) makes
`fetchKey_` a no-op forever (and no transition ever decreases the
counter); a successful response stores exactly the four 32-bit words of
the 16-byte body. -/
theorem C7_key_fetch_retry_bounded :
    (∀ (st : KeyFetchState) (resp : KeyResponse),
      resp.error = true ∨ resp.response = none ∨ (resp.response.getD []).length ≠ 16 →
      (receiveKey st resp).key.retries = st.key.retries + 1 ∧
        ((receiveKey st resp).keyXhr_.isSome = true ↔
          resp.aborted = false ∧ st.encrypted = true ∧ st.key.bytes = none ∧
            st.key.retries + 1 < 2)) ∧
    (∀ st : KeyFetchState, keyFailed st.key = true → fetchKey st = st) ∧
    (∀ (st : KeyFetchState) (resp : KeyResponse),
      st.key.retries ≤ (receiveKey st resp).key.retries ∧
        (fetchKey st).key.retries = st.key.retries) ∧
    (∀ (st : KeyFetchState) (resp : KeyResponse) (bs : List ℕ),
      resp.error = false → resp.response = some bs → bs.length = 16 →
      (receiveKey st resp).key.bytes = some (keyWords bs) ∧ (keyWords bs).length = 4) := by
  refine ⟨?_, fetchKey_noop_of_failed, ?_, ?_⟩
  · intro st resp hbad
    unfold receiveKey
    dsimp only
    rw [if_pos hbad]
    by_cases hab : resp.aborted = false
    · rw [if_pos hab]
      constructor
      · rw [fetchKey_retries]
      · rw [fetchKey_keyXhr_of_none _ rfl]
        dsimp only [keyFailed]
        constructor
        · rintro ⟨henc, hbytes, hfail⟩
          refine ⟨hab, henc, hbytes, ?_⟩
          have hh := of_decide_eq_false hfail
          omega
        · rintro ⟨_, henc, hbytes, hlt⟩
          refine ⟨henc, hbytes, ?_⟩
          exact decide_eq_false (by omega)
    · rw [if_neg hab]
      refine ⟨rfl, ?_⟩
      simp only [Option.isSome_none, Bool.false_eq_true, false_iff]
      rintro ⟨h1, _, _, _⟩
      exact absurd h1 hab
  · intro st resp
    constructor
    · unfold receiveKey
      dsimp only
      split_ifs with h1 h2
      · rw [fetchKey_retries]
        dsimp only
        exact Nat.le_succ _
      · exact Nat.le_succ _
      · exact le_refl _
    · exact fetchKey_retries st
  · intro st resp bs herr hresp hlen
    unfold receiveKey
    dsimp only
    rw [if_neg]
    · rw [hresp]
      exact ⟨rfl, rfl⟩
    · rw [herr, hresp]
      simp [hlen]

/-- A key whose fetch already failed once, mid-second-request. -/
def keyDemoState : KeyFetchState := ⟨some 3, ⟨none, 0⟩, true, 4, false⟩

/-- A key permanently failed after two attempts. -/
def keyFailedDemoState : KeyFetchState := ⟨none, ⟨none, 2⟩, true, 4, false⟩

/-- A key response that errored without being aborted. -/
def keyDemoFailResp : KeyResponse := ⟨true, false, none⟩

/-- A successful 16-byte key response. -/
def keyDemoOkResp : KeyResponse := ⟨false, false, some (List.replicate 16 0)⟩

/-- Witness for C7: a first failure increments the counter to 1 and
re-issues the fetch; a key with two failures is never fetched again; a
16-byte success stores the four words. -/
theorem C7_witness :
    ((receiveKey keyDemoState keyDemoFailResp).key.retries = keyDemoState.key.retries + 1 ∧
      ((receiveKey keyDemoState keyDemoFailResp).keyXhr_.isSome = true ↔
        keyDemoFailResp.aborted = false ∧ keyDemoState.encrypted = true ∧
          keyDemoState.key.bytes = none ∧ keyDemoState.key.retries + 1 < 2)) ∧
    fetchKey keyFailedDemoState = keyFailedDemoState ∧
    ((receiveKey keyDemoState keyDemoOkResp).key.bytes =
        some (keyWords (List.replicate 16 0)) ∧
      (keyWords (List.replicate 16 0)).length = 4) :=
  ⟨C7_key_fetch_retry_bounded.1 keyDemoState keyDemoFailResp (Or.inl rfl),
   C7_key_fetch_retry_bounded.2.1 keyFailedDemoState rfl,
   C7_key_fetch_retry_bounded.2.2.2 keyDemoState keyDemoOkResp (List.replicate 16 0)
     rfl rfl (by simp)⟩


/-- C6: `blacklistCurrentPlaylist_` prefers the playlist named in the
error, else the active one; with no playlist resolvable it records the
error and calls `endOfStream('network')`; otherwise it sets the offending
playlist's `excludeUntil` to now plus the fixed 5-minute penalty and
selects a new playlist, switching to it when one is found and recording
the error and calling `endOfStream('network')` when selection yields
nothing. -/
theorem C6_blacklistCurrentPlaylist :
    ∀ (now : ℤ) (bandwidth : ℚ) (width height : Option ℚ) (master : List Playlist)
      (errPlaylist mediaPlaylist : Option ℕ),
      (errPlaylist.orElse (fun _ => mediaPlaylist) = none →
        blacklistCurrentPlaylist now bandwidth width height master errPlaylist mediaPlaylist
          = ⟨master, true, some EosReason.network, none⟩) ∧
      (∀ pid, errPlaylist.orElse (fun _ => mediaPlaylist) = some pid →
        (blacklistCurrentPlaylist now bandwidth width height master errPlaylist
            mediaPlaylist).master = blacklistApply now pid master ∧
        (∀ p ∈ blacklistApply now pid master, p.id = pid →
            p.excludeUntil = some ((now + blacklistDuration : ℤ) : WithTop ℤ)) ∧
        (∀ q, selectPlaylist (blacklistApply now pid master) now bandwidth width height
              = some q →
          blacklistCurrentPlaylist now bandwidth width height master errPlaylist mediaPlaylist
            = ⟨blacklistApply now pid master, false, none, some q⟩) ∧
        (selectPlaylist (blacklistApply now pid master) now bandwidth width height = none →
          blacklistCurrentPlaylist now bandwidth width height master errPlaylist mediaPlaylist
            = ⟨blacklistApply now pid master, true, some EosReason.network, none⟩)) := by
  intro now bandwidth width height master errPlaylist mediaPlaylist
  constructor
  · intro hnone
    unfold blacklistCurrentPlaylist
    rw [hnone]
  · intro pid hpid
    refine ⟨?_, ?_, ?_, ?_⟩
    · unfold blacklistCurrentPlaylist
      rw [hpid]
      dsimp only
      cases selectPlaylist (blacklistApply now pid master) now bandwidth width height <;> rfl
    · intro p hp hpp
      unfold blacklistApply at hp
      obtain ⟨q0, hq0, hfq⟩ := List.mem_map.mp hp
      by_cases hid : q0.id = pid
      · rw [if_pos hid] at hfq
        rw [← hfq]
      · rw [if_neg hid] at hfq
        rw [← hfq] at hpp
        exact absurd hpp hid
    · intro q hq
      unfold blacklistCurrentPlaylist
      rw [hpid]
      dsimp only
      rw [hq]
    · intro hq
      unfold blacklistCurrentPlaylist
      rw [hpid]
      dsimp only
      rw [hq]

/-- Witness for C6: with no resolvable playlist the call is fatal with a
network reason; blacklisting the only (attribute-less) playlist of a
one-element master sets its `excludeUntil` to now + 5 minutes and, with
nothing left to select, ends the stream with a network reason. -/
theorem C6_witness :
    blacklistCurrentPlaylist 0 1000000 none none [] none none
        = ⟨[], true, some EosReason.network, none⟩ ∧
    (⟨5, none, some ((300000 : ℤ) : WithTop ℤ)⟩ : Playlist).excludeUntil
        = some (((0 : ℤ) + blacklistDuration : ℤ) : WithTop ℤ) ∧
    blacklistCurrentPlaylist 0 1000000 none none [⟨5, none, none⟩] (some 5) none
        = ⟨blacklistApply 0 5 [⟨5, none, none⟩], true, some EosReason.network, none⟩ :=
  ⟨(C6_blacklistCurrentPlaylist 0 1000000 none none [] none none).1 rfl,
   ((C6_blacklistCurrentPlaylist 0 1000000 none none [⟨5, none, none⟩] (some 5) none).2
       5 rfl).2.1 ⟨5, none, some ((300000 : ℤ) : WithTop ℤ)⟩ (by decide) rfl,
   ((C6_blacklistCurrentPlaylist 0 1000000 none none [⟨5, none, none⟩] (some 5) none).2
       5 rfl).2.2.2 (by decide)⟩

theorem fillBufferGo_busy (env : Env) (st : HlsState) (t : Option ℕ) (fuel : ℕ)
    (h : st.segmentXhr_.isSome = true ∨ st.pendingSegment_.isSome = true) :
    fillBufferGo env st t fuel = st := by
  cases fuel with
  | zero => rfl
  | succ n =>
    unfold fillBufferGo
    by_cases hc1 : st.loadingState ≠ LoadingState.segments
    · rw [if_pos hc1]
    rw [if_neg hc1]
    by_cases hc2 : env.hasCurrentSrc = false ∨ st.hasPlaylists = false
    · rw [if_pos hc2]
    rw [if_neg hc2]
    rcases h with hx | hp
    · rw [if_pos hx]
    by_cases hc3 : st.segmentXhr_.isSome = true
    · rw [if_pos hc3]
    rw [if_neg hc3, if_pos hp]

theorem loadSegment_segmentXhr (env : Env) (st : HlsState) (si : SegmentInfo) (seg : Seg) :
    (loadSegment env st si seg).segmentXhr_.isSome = true := rfl

theorem fillBufferGo_result (env : Env) :
    ∀ (fuel : ℕ) (st : HlsState) (t : Option ℕ),
      fillBufferGo env st t fuel = st ∨
        (fillBufferGo env st t fuel).segmentXhr_.isSome = true := by
  intro fuel
  induction fuel with
  | zero => intro st t; exact Or.inl rfl
  | succ n ih =>
    intro st t
    unfold fillBufferGo
    by_cases hc1 : st.loadingState ≠ LoadingState.segments
    · rw [if_pos hc1]; exact Or.inl rfl
    rw [if_neg hc1]
    by_cases hc2 : env.hasCurrentSrc = false ∨ st.hasPlaylists = false
    · rw [if_pos hc2]; exact Or.inl rfl
    rw [if_neg hc2]
    by_cases hc3 : st.segmentXhr_.isSome = true
    · rw [if_pos hc3]; exact Or.inl rfl
    rw [if_neg hc3]
    by_cases hc4 : st.pendingSegment_.isSome = true
    · rw [if_pos hc4]; exact Or.inl rfl
    rw [if_neg hc4]
    by_cases hc5 : st.loaderState = LoaderState.haveNothing ∨ st.media = none ∨
        getSegments st = none
    · rw [if_pos hc5]; exact Or.inl rfl
    rw [if_neg hc5]
    by_cases hc6 : st.loaderState = LoaderState.switchingMedia
    · rw [if_pos hc6]; exact Or.inl rfl
    rw [if_neg hc6]
    · cases hm : st.media with
      | none => exact Or.inl rfl
      | some media =>
        dsimp only
        cases hs : media.segments with
        | none => exact Or.inl rfl
        | some segments =>
          dsimp only
          cases t with
          | some i =>
            dsimp only
            cases hseg : segments[i]? with
            | none => exact Or.inl rfl
            | some segment =>
              dsimp only
              by_cases hrep : (match st.lastSegmentLoaded_ with
                | some lastSeg =>
                  decide (lastSeg.uri = segment.uri) &&
                    decide (lastSeg.byterange = segment.byterange)
                | none => false) = true
              · rw [if_pos hrep]
                exact ih st (some (i + 1))
              · rw [if_neg hrep]
                exact Or.inr (loadSegment_segmentXhr env st _ segment)
          | none =>
            dsimp only
            cases hcb : env.currentBuffered with
            | nil =>
              dsimp only
              cases hseg : segments[env.getMediaIndexForTime env.currentTime]? with
              | none => exact Or.inl rfl
              | some segment =>
                dsimp only
                by_cases hrep : (match st.lastSegmentLoaded_ with
                  | some lastSeg =>
                    decide (lastSeg.uri = segment.uri) &&
                      decide (lastSeg.byterange = segment.byterange)
                  | none => false) = true
                · rw [if_pos hrep]
                  exact ih st (some (env.getMediaIndexForTime env.currentTime + 1))
                · rw [if_neg hrep]
                  exact Or.inr (loadSegment_segmentXhr env st _ segment)
            | cons r rest =>
              dsimp only
              by_cases hgoal : max 0 (r.2 - env.currentTime) ≥ GOAL_BUFFER_LENGTH
              · rw [if_pos hgoal]
                exact Or.inl rfl
              · rw [if_neg hgoal]
                dsimp only
                cases hseg : segments[env.getMediaIndexForTime r.2]? with
                | none => exact Or.inl rfl
                | some segment =>
                  dsimp only
                  by_cases hrep : (match st.lastSegmentLoaded_ with
                    | some lastSeg =>
                      decide (lastSeg.uri = segment.uri) &&
                        decide (lastSeg.byterange = segment.byterange)
                    | none => false) = true
                  · rw [if_pos hrep]
                    exact ih st (some (env.getMediaIndexForTime r.2 + 1))
                  · rw [if_neg hrep]
                    exact Or.inr (loadSegment_segmentXhr env st _ segment)

/-- C8: at most one segment fetch is in flight at a time.  `fillBuffer`
returns without touching the state whenever a segment request is
outstanding or a pending segment record exists, and invoking it twice in
immediate succession with no state change between the calls equals
invoking it once (so exactly one outstanding fetch results). -/
theorem C8_fillBuffer_single_flight :
    (∀ (env : Env) (st : HlsState) (t : Option ℕ),
      st.segmentXhr_.isSome = true ∨ st.pendingSegment_.isSome = true →
      fillBuffer env st t = st) ∧
    (∀ (env : Env) (st : HlsState) (t : Option ℕ),
      fillBuffer env (fillBuffer env st t) t = fillBuffer env st t) := by
  have hbusy : ∀ (env : Env) (st : HlsState) (t : Option ℕ),
      st.segmentXhr_.isSome = true ∨ st.pendingSegment_.isSome = true →
      fillBuffer env st t = st := by
    intro env st t h
    exact fillBufferGo_busy env st t _ h
  refine ⟨hbusy, ?_⟩
  intro env st t
  rcases fillBufferGo_result env ((getSegments st).getD []).length.succ st t with h | h
  · have h2 : fillBuffer env st t = st := h
    rw [h2]
    exact h2
  · have h2 : (fillBuffer env st t).segmentXhr_.isSome = true := h
    exact hbusy env (fillBuffer env st t) t (Or.inl h2)

/-- Witness for C8: with request 7 outstanding, `fillBuffer` is a no-op. -/
theorem C8_witness : fillBuffer seekDemoEnv seekDemoState none = seekDemoState :=
  C8_fillBuffer_single_flight.1 seekDemoEnv seekDemoState none (Or.inl rfl)

/-- C5 counterexample: the claim asserts that a seek whose target is
already inside a buffered interval cancels the outstanding segment and key
requests and clears the pending-fetch record.  With the seek target 5
inside the buffered range [0,10] and requests 7 (segment) and 9 (key)
outstanding, `setCurrentTime` returns with the state untouched: both
requests are still outstanding. -/
theorem C5_counterexample_buffered_seek_keeps_requests :
    (setCurrentTime seekDemoEnv seekDemoState 5).1 = seekDemoState ∧
    seekDemoState.segmentXhr_ = some 7 ∧ seekDemoState.keyXhr_ = some 9 ∧
    (setCurrentTime seekDemoEnv seekDemoState 5).1.segmentXhr_ ≠ none ∧
    (setCurrentTime seekDemoEnv seekDemoState 5).1.keyXhr_ ≠ none := by
  refine ⟨by decide, rfl, rfl, by decide, by decide⟩

/-- C5 (amended): a seek delivered to `setCurrentTime` whose target is NOT
already buffered and whose pending segment is not mid-append cancels the
outstanding segment request and any outstanding key request, clears the
pending-fetch record, and restarts filling from the chunk index derived
from the new position; a seek to an already-buffered or mid-append
position returns immediately with the state untouched; and a segment-fetch
completion callback acts only after verifying its request is still the
current outstanding one. -/
theorem C5_amended_seek_cancellation :
    (∀ (env : Env) (st : HlsState) (t : ℚ),
      st.hasPlaylists = true → st.media.isSome = true → getSegments st ≠ none →
      env.currentBuffered = [] →
      (match st.pendingSegment_ with
       | some p => p.buffered.isSome
       | none => false) = false →
      setCurrentTime env st t =
        (fillBuffer env
          { st with
              lastSegmentLoaded_ := none
              segmentXhr_ := none
              pendingSegment_ := none
              keyXhr_ := none
              abortedSegmentXhrs := st.abortedSegmentXhrs ++
                (match st.segmentXhr_ with
                 | some r => [r]
                 | none => [])
              abortedKeyXhrs := st.abortedKeyXhrs ++
                (match st.keyXhr_ with
                 | some r => [r]
                 | none => []) }
          (some (env.getMediaIndexForTime t)), none)) ∧
    (∀ (env : Env) (st : HlsState) (t : ℚ),
      st.hasPlaylists = true → st.media.isSome = true → getSegments st ≠ none →
      env.currentBuffered ≠ [] →
      setCurrentTime env st t = (st, some t)) ∧
    (∀ (env : Env) (st : HlsState) (t : ℚ) (p : SegmentInfo),
      st.hasPlaylists = true → st.media.isSome = true → getSegments st ≠ none →
      env.currentBuffered = [] → st.pendingSegment_ = some p → p.buffered.isSome = true →
      setCurrentTime env st t = (st, some t)) ∧
    (∀ (st : HlsState) (segmentInfo : SegmentInfo) (segment : Seg) (resp : SegmentResponse),
      segmentResponseIsCurrent st resp.request = false →
      onSegmentResponse st segmentInfo segment resp = (st, [])) := by
  refine ⟨?_, ?_, ?_, ?_⟩
  · intro env st t h1 h2 h3 h4 h5
    unfold setCurrentTime
    dsimp only
    rw [if_neg (by simp [h1, h2]), if_neg h3, if_neg (by simp [h4]), if_neg (by simp [h5])]
    cases hsx : st.segmentXhr_ with
    | some r =>
      cases hkx : st.keyXhr_ with
      | some k => simp [hsx, hkx]
      | none => simp [hsx, hkx]
    | none =>
      cases hkx : st.keyXhr_ with
      | some k => simp [hsx, hkx]
      | none => simp [hsx, hkx]
  · intro env st t h1 h2 h3 h4
    unfold setCurrentTime
    dsimp only
    rw [if_neg (by simp [h1, h2]), if_neg h3, if_pos h4]
  · intro env st t p h1 h2 h3 h4 h5 h6
    unfold setCurrentTime
    dsimp only
    rw [if_neg (by simp [h1, h2]), if_neg h3, if_neg (by simp [h4]),
      if_pos (by simp [h5, h6])]
  · intro st segmentInfo segment resp hguard
    unfold onSegmentResponse
    rw [if_pos hguard]

/-- Witness for C5: a seek to 5 with nothing buffered there cancels
requests 7 and 9, clears the pending record and restarts filling at the
derived index. -/
theorem C5_witness :
    setCurrentTime seekDemoEnvEmpty seekDemoState 5 =
      (fillBuffer seekDemoEnvEmpty
        { seekDemoState with
            lastSegmentLoaded_ := none
            segmentXhr_ := none
            pendingSegment_ := none
            keyXhr_ := none
            abortedSegmentXhrs := seekDemoState.abortedSegmentXhrs ++
              (match seekDemoState.segmentXhr_ with
               | some r => [r]
               | none => [])
            abortedKeyXhrs := seekDemoState.abortedKeyXhrs ++
              (match seekDemoState.keyXhr_ with
               | some r => [r]
               | none => []) }
        (some (seekDemoEnvEmpty.getMediaIndexForTime 5)), none) :=
  C5_amended_seek_cancellation.1 seekDemoEnvEmpty seekDemoState 5 rfl rfl (by decide) rfl rfl
